import Mathlib

/-!
Verification development for `scripts/analyze_doc.py` of the
sn-story-transformer repository.

The pipeline under study is: prompt synthesis (`build_prompt`), response
extraction (`extract_json`), and structural validation
(`validate_structure`).  The definitions below are shallow embeddings of
the Python source.  Python strings are modelled as Lean `String`
(sequences of code points, matching CPython semantics for slicing,
`strip`, and iteration); Python dicts are modelled as association lists
with last-binding-wins lookup (the overwrite semantics of dict
construction); fallible Python code is modelled with `Except`.
-/

set_option maxRecDepth 4096

/-! ## Character classes

`isPySpace` models both CPython `str.isspace` (used by `str.strip`) and
the `\s` class of the `re` module in unicode mode: the two coincide on
the whitespace set below. -/

def backtick : Char := Char.ofNat 96

def lbrace : Char := Char.ofNat 123

def rbrace : Char := Char.ofNat 125

def isPySpace (c : Char) : Bool :=
  c == ' ' || c == '\t' || c == '\n' || c == '\r' ||
  c == Char.ofNat 11 || c == Char.ofNat 12 ||
  c == Char.ofNat 28 || c == Char.ofNat 29 ||
  c == Char.ofNat 30 || c == Char.ofNat 31 ||
  c == Char.ofNat 133 || c == Char.ofNat 160 ||
  c == Char.ofNat 0x1680 ||
  (0x2000 ≤ c.toNat && c.toNat ≤ 0x200a) ||
  c == Char.ofNat 0x2028 || c == Char.ofNat 0x2029 ||
  c == Char.ofNat 0x202f || c == Char.ofNat 0x205f ||
  c == Char.ofNat 0x3000

/-- JSON whitespace skipped by `json.loads` (only these four). -/
def jsonWs (c : Char) : Bool :=
  c == ' ' || c == '\t' || c == '\n' || c == '\r'

/-! ## Python `str.strip()` on `List Char` -/

/-- Remove trailing characters satisfying `isPySpace`, keeping the list
otherwise intact (stripping on the right). -/
def dropTrailingWs (l : List Char) : List Char :=
  (l.reverse.dropWhile isPySpace).reverse

/-- Python `str.strip()`: remove leading and trailing whitespace. -/
def pyStripL (l : List Char) : List Char :=
  dropTrailingWs (l.dropWhile isPySpace)

def pyStripS (s : String) : String := String.mk (pyStripL s.data)

/-! ## The two `re.sub` passes of `extract_json` (source lines 197-198)

Source:
  cleaned = re.sub(r"^```(?:json)?\s*", "", raw.strip(), flags=re.MULTILINE)
  cleaned = re.sub(r"\s*```$", "", cleaned.strip(), flags=re.MULTILINE)

With `re.MULTILINE`, `^` matches at position 0 and right after every
newline of the subject, and `$` matches at the end and right before
every newline.  `re.sub` scans start positions left to right and
restarts after the end of each match; anchors are evaluated against the
original subject positions.  Both facts are reflected below: the scan
carries the position-at-line-start flag as "previous character was a
newline", and substitution recurses on the unconsumed remainder. -/

def eatLit : List Char → List Char → Option (List Char)
  | [], l => some l
  | p :: ps, c :: cs => if c == p then eatLit ps cs else none
  | _ :: _, [] => none

/-- Does the list begin with three backticks? -/
def startsFence (l : List Char) : Bool :=
  match l with
  | a :: b :: c :: _ => a == backtick && b == backtick && c == backtick
  | _ => false

/-- Consume the optional `json` tag of the opening-fence pattern. -/
def stripJsonTag (l : List Char) : List Char :=
  match eatLit ['j', 's', 'o', 'n'] l with
  | some r => r
  | none => l

/-- Drop a maximal run of `\s` characters, tracking whether the last
dropped character was a newline (that decides whether the position after
the match is a line start). -/
def dropWsNL : List Char → Bool → List Char × Bool
  | [], b => ([], b)
  | c :: cs, b =>
    if isPySpace c then dropWsNL cs (c == '\n') else (c :: cs, b)

/-- One match attempt of `^```(?:json)?\s*` at a line-start position:
returns the remainder after the match together with the
line-start flag for the continuation position. -/
def matchOpen (l : List Char) : Option (List Char × Bool) :=
  if startsFence l then
    match l with
    | _ :: _ :: _ :: rest => some (dropWsNL (stripJsonTag rest) false)
    | _ => none
  else none

/-- `re.sub(r"^```(?:json)?\s*", "", ·, flags=re.MULTILINE)`.
The fuel argument dominates the input length; every recursive step
consumes at least one character. -/
def subOpenAux : Nat → List Char → Bool → List Char
  | 0, l, _ => l
  | fuel + 1, l, atLS =>
    match l with
    | [] => []
    | c :: cs =>
      if atLS then
        match matchOpen l with
        | some (rest, endNL) => subOpenAux fuel rest endNL
        | none => c :: subOpenAux fuel cs (c == '\n')
      else c :: subOpenAux fuel cs (c == '\n')

def subOpen (l : List Char) : List Char := subOpenAux (l.length + 1) l true

/-- One match attempt of `\s*```$` at a given position.  Because `\s*`
is a maximal whitespace run followed by a non-whitespace character, the
only candidate length for `\s*` is the full run; the match succeeds
exactly when three backticks follow the run and sit at a line end
(`$` does not consume the newline). -/
def matchClose (l : List Char) : Option (List Char) :=
  let r := l.dropWhile isPySpace
  if startsFence r then
    match r with
    | _ :: _ :: _ :: rest =>
      match rest with
      | [] => some []
      | c :: _ => if c == '\n' then some rest else none
    | _ => none
  else none

/-- `re.sub(r"\s*```$", "", ·, flags=re.MULTILINE)`. -/
def subCloseAux : Nat → List Char → List Char
  | 0, l => l
  | fuel + 1, l =>
    match l with
    | [] => []
    | c :: cs =>
      match matchClose l with
      | some rest => subCloseAux fuel rest
      | none => c :: subCloseAux fuel cs

def subClose (l : List Char) : List Char := subCloseAux (l.length + 1) l

/-- The cleaning phase of `extract_json` (source lines 197-199):
strip, remove opening fences, strip, remove closing fences, strip. -/
def cleanTextL (l : List Char) : List Char :=
  pyStripL (subClose (pyStripL (subOpen (pyStripL l))))

def cleanText (raw : String) : String := String.mk (cleanTextL raw.data)

/-! ## JSON values and the `json.loads` model

`Json` models the Python values produced by `json.loads`:
`None`, `bool`, numbers, `str`, `list`, `dict`.  Numbers are kept as
their source token (CPython distinguishes int/float and normalizes float
repr; no claim depends on numeric value identity).  Objects keep the
parsed member list; dict overwrite semantics are applied at lookup
(`dictGet` returns the last binding, as `dict(pairs)` would). -/

inductive Json where
  | null
  | bool (b : Bool)
  | num (tok : String)
  | str (s : String)
  | arr (elems : List Json)
  | obj (members : List (String × Json))

/-- Decoder failures of `json.loads` (`json.JSONDecodeError` kinds).
Positions are the character offsets CPython reports (it additionally
formats them as line/column; the offset carries the same information). -/
inductive JErr where
  | expectingValue (pos : Nat)
  | extraData (pos : Nat)
  | expectingPropName (pos : Nat)
  | expectingColon (pos : Nat)
  | expectingComma (pos : Nat)
  | unterminatedString (pos : Nat)
  | invalidControl (pos : Nat)
  | invalidEscape (pos : Nat)
  | invalidUEscape (pos : Nat)
deriving DecidableEq

/-- The message carried by the decoder error. -/
def jerrMsg : JErr → String
  | .expectingValue p => "Expecting value: char " ++ toString p
  | .extraData p => "Extra data: char " ++ toString p
  | .expectingPropName p =>
      "Expecting property name enclosed in double quotes: char " ++ toString p
  | .expectingColon p => "Expecting \x27:\x27 delimiter: char " ++ toString p
  | .expectingComma p => "Expecting \x27,\x27 delimiter: char " ++ toString p
  | .unterminatedString p => "Unterminated string starting at: char " ++ toString p
  | .invalidControl p => "Invalid control character at: char " ++ toString p
  | .invalidEscape p => "Invalid \\escape: char " ++ toString p
  | .invalidUEscape p => "Invalid \\uXXXX escape: char " ++ toString p

def skipWs : List Char → Nat → List Char × Nat
  | [], p => ([], p)
  | c :: cs, p => if jsonWs c then skipWs cs (p + 1) else (c :: cs, p)

def hexVal (c : Char) : Option Nat :=
  if '0' ≤ c && c ≤ '9' then some (c.toNat - 48)
  else if 'a' ≤ c && c ≤ 'f' then some (c.toNat - 87)
  else if 'A' ≤ c && c ≤ 'F' then some (c.toNat - 70)
  else none

def parseHex4 (l : List Char) : Option (Nat × List Char) :=
  match l with
  | a :: b :: c :: d :: rest =>
    match hexVal a, hexVal b, hexVal c, hexVal d with
    | some va, some vb, some vc, some vd =>
      some (va * 4096 + vb * 256 + vc * 16 + vd, rest)
    | _, _, _, _ => none
  | _ => none

/-- CPython `py_scanstring` (strict mode): `cs` is positioned after the
opening quote at index `q`; `pos` is the current index; escape handling,
control-character rejection and surrogate-pair combination follow the
stdlib.  A lone surrogate is kept by CPython as an unpaired code unit,
which `Char` cannot represent; `Char.ofNat` then yields NUL (a corner no
claim touches). -/
def parseStringAux : Nat → List Char → Nat → Nat → List Char →
    Except JErr (String × List Char × Nat)
  | 0, _, q, _, _ => .error (.unterminatedString q)
  | _ + 1, [], q, _, _ => .error (.unterminatedString q)
  | fuel + 1, c :: cs, q, pos, acc =>
    if c == '"' then .ok (String.mk acc.reverse, cs, pos + 1)
    else if c == '\\' then
      match cs with
      | [] => .error (.unterminatedString q)
      | e :: rest =>
        if e == '"' then parseStringAux fuel rest q (pos + 2) ('"' :: acc)
        else if e == '\\' then parseStringAux fuel rest q (pos + 2) ('\\' :: acc)
        else if e == '/' then parseStringAux fuel rest q (pos + 2) ('/' :: acc)
        else if e == 'b' then parseStringAux fuel rest q (pos + 2) (Char.ofNat 8 :: acc)
        else if e == 'f' then parseStringAux fuel rest q (pos + 2) (Char.ofNat 12 :: acc)
        else if e == 'n' then parseStringAux fuel rest q (pos + 2) ('\n' :: acc)
        else if e == 'r' then parseStringAux fuel rest q (pos + 2) ('\r' :: acc)
        else if e == 't' then parseStringAux fuel rest q (pos + 2) ('\t' :: acc)
        else if e == 'u' then
          match parseHex4 rest with
          | none => .error (.invalidUEscape (pos + 2))
          | some (n, rest2) =>
            if 0xd800 ≤ n && n ≤ 0xdbff then
              match rest2 with
              | '\\' :: 'u' :: rest3 =>
                match parseHex4 rest3 with
                | none => .error (.invalidUEscape (pos + 8))
                | some (m, rest4) =>
                  if 0xdc00 ≤ m && m ≤ 0xdfff then
                    parseStringAux fuel rest4 q (pos + 12)
                      (Char.ofNat (0x10000 + (n - 0xd800) * 1024 + (m - 0xdc00)) :: acc)
                  else
                    parseStringAux fuel rest2 q (pos + 6) (Char.ofNat n :: acc)
              | _ => parseStringAux fuel rest2 q (pos + 6) (Char.ofNat n :: acc)
            else
              parseStringAux fuel rest2 q (pos + 6) (Char.ofNat n :: acc)
        else .error (.invalidEscape (pos + 1))
    else if c.toNat < 0x20 then .error (.invalidControl pos)
    else parseStringAux fuel cs q (pos + 1) (c :: acc)

/-- The number regex of the json module:
`(-?(?:0|[1-9]\d*))(\.\d+)?([eE][-+]?\d+)?`; returns the token and the
remainder, or `none` when the mandatory integer part is absent. -/
def parseNumber (cs : List Char) : Option (List Char × List Char) :=
  let (neg, r1) :=
    match cs with
    | c :: r => if c == '-' then ([c], r) else (([] : List Char), cs)
    | [] => ([], [])
  match r1 with
  | c :: r2 =>
    if c == '0' || c.isDigit then
      let (intPart, r3) :=
        if c == '0' then ([c], r2)
        else
          let (ds, r3) := r2.span Char.isDigit
          (c :: ds, r3)
      let (fracPart, r4) :=
        match r3 with
        | dot :: d :: _ =>
          if dot == '.' && d.isDigit then
            let (ds, r) := (r3.drop 1).span Char.isDigit
            (dot :: ds, r)
          else (([] : List Char), r3)
        | _ => ([], r3)
      let (expPart, r5) :=
        match r4 with
        | e :: rest =>
          if e == 'e' || e == 'E' then
            let (sgn, rs) :=
              match rest with
              | s :: r => if s == '+' || s == '-' then ([s], r) else (([] : List Char), rest)
              | [] => ([], rest)
            match rs with
            | d :: _ =>
              if d.isDigit then
                let (ds, r) := rs.span Char.isDigit
                (e :: (sgn ++ ds), r)
              else (([] : List Char), r4)
            | [] => ([], r4)
          else (([] : List Char), r4)
        | [] => ([], r4)
      some (neg ++ intPart ++ fracPart ++ expPart, r5)
    else none
  | [] => none

/-- One step of `scan_once`: `pv` parses a nested value (the same
scanner with one unit less fuel).  Mirrors the dispatch order of the
pure-Python scanner: string, object, array, literals, number,
`NaN` / `Infinity` / `-Infinity`. -/
def arrLoop (pv : List Char → Nat → Except JErr (Json × List Char × Nat)) :
    Nat → List Char → Nat → List Json → Except JErr (Json × List Char × Nat)
  | 0, _, pos, _ => .error (.expectingValue pos)
  | fuel + 1, cs, pos, acc => do
    let (v, cs1, p1) ← pv cs pos
    let (cs2, p2) := skipWs cs1 p1
    match cs2 with
    | c :: r =>
      if c == ']' then .ok (.arr (acc ++ [v]), r, p2 + 1)
      else if c == ',' then
        let (cs3, p3) := skipWs r (p2 + 1)
        arrLoop pv fuel cs3 p3 (acc ++ [v])
      else .error (.expectingComma p2)
    | [] => .error (.expectingComma p2)

def objLoop (pv : List Char → Nat → Except JErr (Json × List Char × Nat)) :
    Nat → List Char → Nat → List (String × Json) →
    Except JErr (Json × List Char × Nat)
  | 0, _, qpos, _ => .error (.expectingPropName qpos)
  | fuel + 1, cs, qpos, acc => do
    let (key, cs1, p1) ← parseStringAux (cs.length + 1) cs qpos (qpos + 1) []
    let (cs2, p2) := skipWs cs1 p1
    match cs2 with
    | c :: r =>
      if c == ':' then do
        let (cs3, p3) := skipWs r (p2 + 1)
        let (v, cs4, p4) ← pv cs3 p3
        let (cs5, p5) := skipWs cs4 p4
        match cs5 with
        | c2 :: r2 =>
          if c2 == rbrace then .ok (.obj (acc ++ [(key, v)]), r2, p5 + 1)
          else if c2 == ',' then
            let (cs6, p6) := skipWs r2 (p5 + 1)
            match cs6 with
            | c3 :: r3 =>
              if c3 == '"' then objLoop pv fuel r3 p6 (acc ++ [(key, v)])
              else .error (.expectingPropName p6)
            | [] => .error (.expectingPropName p6)
          else .error (.expectingComma p5)
        | [] => .error (.expectingComma p5)
      else .error (.expectingColon p2)
    | [] => .error (.expectingColon p2)

def arrStart (pv : List Char → Nat → Except JErr (Json × List Char × Nat))
    (cs : List Char) (pos : Nat) : Except JErr (Json × List Char × Nat) :=
  let (cs1, p1) := skipWs cs pos
  match cs1 with
  | c :: r =>
    if c == ']' then .ok (.arr [], r, p1 + 1)
    else arrLoop pv (cs1.length + 1) cs1 p1 []
  | [] => .error (.expectingValue p1)

def objStart (pv : List Char → Nat → Except JErr (Json × List Char × Nat))
    (cs : List Char) (pos : Nat) : Except JErr (Json × List Char × Nat) :=
  let (cs1, p1) := skipWs cs pos
  match cs1 with
  | c :: r =>
    if c == rbrace then .ok (.obj [], r, p1 + 1)
    else if c == '"' then objLoop pv (cs1.length + 1) r p1 []
    else .error (.expectingPropName p1)
  | [] => .error (.expectingPropName p1)

def parseStep (pv : List Char → Nat → Except JErr (Json × List Char × Nat))
    (cs : List Char) (pos : Nat) : Except JErr (Json × List Char × Nat) :=
  match cs with
  | [] => .error (.expectingValue pos)
  | c :: rest =>
    if c == '"' then
      match parseStringAux (rest.length + 1) rest pos (pos + 1) [] with
      | .ok (s, cs1, p1) => .ok (.str s, cs1, p1)
      | .error e => .error e
    else if c == lbrace then objStart pv rest (pos + 1)
    else if c == '[' then arrStart pv rest (pos + 1)
    else
      match eatLit ['n', 'u', 'l', 'l'] cs with
      | some r => .ok (.null, r, pos + 4)
      | none =>
      match eatLit ['t', 'r', 'u', 'e'] cs with
      | some r => .ok (.bool true, r, pos + 4)
      | none =>
      match eatLit ['f', 'a', 'l', 's', 'e'] cs with
      | some r => .ok (.bool false, r, pos + 5)
      | none =>
      match parseNumber cs with
      | some (tok, r) => .ok (.num (String.mk tok), r, pos + tok.length)
      | none =>
      match eatLit ['N', 'a', 'N'] cs with
      | some r => .ok (.num "NaN", r, pos + 3)
      | none =>
      match eatLit ['I', 'n', 'f', 'i', 'n', 'i', 't', 'y'] cs with
      | some r => .ok (.num "Infinity", r, pos + 8)
      | none =>
      match eatLit ['-', 'I', 'n', 'f', 'i', 'n', 'i', 't', 'y'] cs with
      | some r => .ok (.num "-Infinity", r, pos + 9)
      | none => .error (.expectingValue pos)

def parseValue : Nat → List Char → Nat → Except JErr (Json × List Char × Nat)
  | 0, _, pos => .error (.expectingValue pos)
  | fuel + 1, cs, pos => parseStep (parseValue fuel) cs pos

/-- `json.loads`: skip leading whitespace, scan one value, skip trailing
whitespace, and reject extra data. -/
def jsonLoads (s : String) : Except JErr Json :=
  let cs := s.data
  let (cs1, p1) := skipWs cs 0
  match parseValue (cs.length + 1) cs1 p1 with
  | .error e => .error e
  | .ok (v, rest, p2) =>
    let (rest2, p3) := skipWs rest p2
    match rest2 with
    | [] => .ok v
    | _ => .error (.extraData p3)

/-! ## `extract_json` (source lines 195-209) -/

/-- The diagnostic payload of the fatal parse failure: the decoder
message and the first 500 characters of the cleaned text, exactly the
two pieces interpolated into the `sys.exit` message. -/
structure ParseError where
  decoderMsg : String
  excerpt : String

def strTake (s : String) (n : Nat) : String := String.mk (s.data.take n)

def extract_json (raw : String) : Except ParseError Json :=
  let cleaned := cleanText raw
  match jsonLoads cleaned with
  | .ok v => .ok v
  | .error e => .error ⟨jerrMsg e, strTake cleaned 500⟩

/-! ## Schema Model (source `load_schema` / schema.yaml contract)

`build_prompt` reads `schema.get("ai", {}).get("instructions", {})` and
`schema.get("priorities", {})`; `validate_structure` reads
`set(schema.get("priorities", {}).keys())`.  The schema is modelled as
those two mappings; a missing `ai`/`instructions`/`priorities` key is an
empty mapping.  Priority records are `{guidance, label}`; `Option`
captures a missing record key (`cfg["guidance"]` raises `KeyError`,
`.get("label")` defaults). -/

structure PrioCfg where
  guidance : Option String
  label : Option String

structure Schema where
  instructions : List (String × String)
  priorities : List (String × PrioCfg)

/-- Python exceptions surfacing from `build_prompt`. -/
inductive PyErr where
  | keyError (key : String)
deriving DecidableEq

/-- `ai.get(key, default)`. -/
def aiGet (schema : Schema) (key dflt : String) : String :=
  match schema.instructions.lookup key with
  | some v => v
  | none => dflt

/-! Built-in default guidance strings (source lines 123-132). -/

def defGrouping : String := "Group related items into 3–7 logical epics."

def defStoryFormat : String :=
  "Write each user story as: As a <role>, I want <goal> so that <benefit>."

def defDescriptionFormat : String :=
  "Include a reference ID, the user story, and the current state."

def defAcceptanceCriteria : String :=
  "Provide 5–8 specific, testable criteria per story as plain text strings."

/-- One line of the priority vocabulary block:
`  - "{key}": {cfg["guidance"]}`. -/
def prioLine (key guidance : String) : String :=
  "  - \"" ++ key ++ "\": " ++ guidance

/-- The generator feeding `"\n".join`: each priority record is indexed
at `"guidance"` without a default, so the first record lacking the key
raises `KeyError` (source lines 114-117). -/
def priorityLines : List (String × PrioCfg) → Except PyErr (List String)
  | [] => .ok []
  | (k, cfg) :: rest =>
    match cfg.guidance with
    | none => .error (.keyError "guidance")
    | some g => do
      let more ← priorityLines rest
      pure (prioLine k g :: more)

def priority_block (ps : List (String × PrioCfg)) : Except PyErr String := do
  let lines ← priorityLines ps
  pure ("\n".intercalate lines)

/-! The literal pieces of the system prompt f-string
(source lines 119-163); `\x7b`/`\x7d` denote the literal braces written
as `{{`/`}}` in the f-string. -/

def sysPart1 : String :=
  "You are a skilled business analyst. Analyse the provided document and produce a structured JSON backlog of epics and user stories.\n\nEPIC GROUPING:\n"

def sysPart2 : String := "\n\nSTORY FORMAT:\n"

def sysPart3 : String := "\n\nSTORY DESCRIPTION FORMAT:\n"

def sysPart4 : String := "\n\nACCEPTANCE CRITERIA:\n"

def sysPart5 : String := "\n\nPRIORITY — use exactly these string keys:\n"

def sysPart6 : String :=
  "\n\nOUTPUT — return ONLY this JSON structure, no markdown fences, no explanation:\n\x7b\n  \"epics\": [\n    \x7b\n      \"key\": \"snake_case_identifier\",\n      \"short_description\": \"Epic title (50–80 chars)\",\n      \"description\": \"One-paragraph epic summary\",\n      \"stories\": [\n        \x7b\n          \"gap_id\": \"X-1\",\n          \"short_description\": \"Story title (50–80 chars)\",\n          \"description\": \"Reference line\\n\\nUser story sentence.\\n\\nCurrent state: ...\",\n          \"acceptance_criteria\": [\n            \"First testable criterion\",\n            \"Second testable criterion\"\n          ],\n          \"priority\": \"critical\"\n        \x7d\n      ]\n    \x7d\n  ]\n\x7d\n\nRULES:\n- Include \"gap_id\" only if a reference ID exists in the source document; omit the field otherwise.\n- Return ONLY the JSON object — no markdown code fences, no preamble, no commentary.\n"

/-- The system prompt assembled from the four instruction blocks and the
priority block (right-associated so each block sits between two fixed
literal pieces). -/
def systemPromptOf (g sf df ac pb : String) : String :=
  sysPart1 ++ (g ++ (sysPart2 ++ (sf ++ (sysPart3 ++ (df ++
    (sysPart4 ++ (ac ++ (sysPart5 ++ (pb ++ sysPart6)))))))))

/-- The user prompt (source lines 165-170). -/
def userPromptOf (document : String) : String :=
  "Analyse the following document and produce the JSON backlog described above.\n\n--- DOCUMENT START ---\n"
    ++ document ++ "\n--- DOCUMENT END ---"

/-- `build_prompt(schema, document)` (source lines 109-172): raises
`KeyError` iff some priority record lacks `"guidance"`; otherwise
returns the pair of prompt strings. -/
def build_prompt (schema : Schema) (document : String) :
    Except PyErr (String × String) := do
  let pb ← priority_block schema.priorities
  pure
    (systemPromptOf
        (aiGet schema "grouping" defGrouping)
        (aiGet schema "story_format" defStoryFormat)
        (aiGet schema "description_format" defDescriptionFormat)
        (aiGet schema "acceptance_criteria" defAcceptanceCriteria)
        pb,
      userPromptOf document)

/-! ## Python dynamic semantics needed by `validate_structure` -/

/-- Python dict lookup on the parsed member list: the last binding wins,
as in `dict` construction from duplicate keys. -/
def dictGet : List (String × Json) → String → Option Json
  | [], _ => none
  | (k, v) :: rest, key =>
    match dictGet rest key with
    | some w => some w
    | none => if k == key then some v else none

/-- Is a number token of the json grammar (or a NaN/Infinity constant)
numerically zero?  By the grammar the integer part is `0` or starts with
a nonzero digit, so zero means integer part `0` and an all-zero
fraction. -/
def numIsZero (tok : String) : Bool :=
  let l :=
    match tok.data with
    | c :: r => if c == '-' then r else tok.data
    | [] => []
  match l with
  | '0' :: rest =>
    match rest with
    | [] => true
    | '.' :: r2 => ((r2.takeWhile Char.isDigit).all (· == '0'))
    | 'e' :: _ => true
    | 'E' :: _ => true
    | _ => false
  | _ => false

/-- Python truthiness of a parsed JSON value. -/
def pyFalsy : Json → Bool
  | .null => true
  | .bool b => !b
  | .num t => numIsZero t
  | .str s => s.isEmpty
  | .arr xs => xs.isEmpty
  | .obj kvs => kvs.isEmpty

/-- Keep the first occurrence of each key (dict insertion order). -/
def dedupKeysAux : Nat → List String → List String
  | 0, l => l
  | _ + 1, [] => []
  | fuel + 1, k :: ks => k :: dedupKeysAux fuel (ks.filter (fun x => !(x == k)))

def dedupKeys (l : List String) : List String := dedupKeysAux l.length l

/-- Errors surfacing from `validate_structure`: the `sys.exit` on an
empty backlog (source lines 219-224), or an uncaught Python exception
(`AttributeError`/`TypeError`) on values outside the trusted shape. -/
inductive VErr where
  | emptyBacklog
  | pyExc (msg : String)
deriving DecidableEq

/-- `for x in v`: lists yield elements, strings yield one-character
strings, dicts yield their keys; other values raise `TypeError`. -/
def pyIter (v : Json) : Except VErr (List Json) :=
  match v with
  | .arr xs => .ok xs
  | .str s => .ok (s.data.map (fun c => Json.str (String.mk [c])))
  | .obj kvs => .ok ((dedupKeys (kvs.map Prod.fst)).map Json.str)
  | _ => .error (.pyExc "TypeError: object is not iterable")

/-- `v.get(key, dflt)`: defined on dicts, `AttributeError` otherwise. -/
def pyGet (v : Json) (key : String) (dflt : Json) : Except VErr Json :=
  match v with
  | .obj kvs => .ok ((dictGet kvs key).getD dflt)
  | _ => .error (.pyExc "AttributeError: object has no attribute get")

/-- Python `repr` of a parsed JSON value (the rendering `str` applies to
the elements of containers).  Float-token normalization of CPython
(for instance `1e5` printing as `100000.0`) is not modelled; no claim
evaluates `str` on numbers. -/
def pyRepr : Json → String
  | .null => "None"
  | .bool true => "True"
  | .bool false => "False"
  | .num t => t
  | .str s => "\x27" ++ s ++ "\x27"
  | .arr xs => "[" ++ ", ".intercalate (xs.attach.map (fun x => pyRepr x.1)) ++ "]"
  | .obj kvs =>
      "\x7b" ++
        ", ".intercalate (kvs.attach.map
          (fun kv => "\x27" ++ kv.1.1 ++ "\x27: " ++ pyRepr kv.1.2)) ++
      "\x7d"
decreasing_by
  · have h := List.sizeOf_lt_of_mem x.2
    simp only [Json.arr.sizeOf_spec]
    omega
  · have h := List.sizeOf_lt_of_mem kv.2
    have h2 : sizeOf kv.1.2 < sizeOf kv.1 := by
      obtain ⟨⟨k, v⟩, hm⟩ := kv
      simp
    simp only [Json.obj.sizeOf_spec]
    omega

/-- Python `str` as applied inside the warning f-strings. -/
def pyStr (v : Json) : String :=
  match v with
  | .str s => s
  | _ => pyRepr v

/-! ## `validate_structure` (source lines 216-244) -/

/-- `set(schema.get("priorities", {}).keys())` (source line 226).  Dict
keys are unique, so the set is modelled by the key list in insertion
order; membership tests agree, and CPython leaves the iteration order of
a `str` set unspecified anyway. -/
def validPriorities (schema : Schema) : List String :=
  schema.priorities.map Prod.fst

/-- `p not in valid_priorities` negated: a non-string value never equals
any member of a set of strings. -/
def pyStrMem (p : Json) (valid : List String) : Bool :=
  match p with
  | .str s => valid.contains s
  | _ => false

/-- The warning f-string of source line 231. -/
def epicWarnStr (sd : String) : String :=
  "  Epic \x27" ++ sd ++ "\x27 has no stories."

/-- The warning f-string of source lines 235-238. -/
def storyWarnStr (sd p : String) (valid : List String) : String :=
  "  Story \x27" ++ sd ++ "\x27 has unknown priority \x27" ++ p ++
    "\x27 — valid values: " ++ ", ".intercalate valid

/-- The inner loop over `epic.get("stories", [])` (source lines
232-238), accumulating warnings in iteration order. -/
def storyLoop (valid : List String) : List Json → Except VErr (List String)
  | [] => .ok []
  | story :: rest => do
    let p ← pyGet story "priority" (Json.str "")
    let here ←
      if pyStrMem p valid then pure ([] : List String)
      else do
        let sd ← pyGet story "short_description" (Json.str "?")
        pure [storyWarnStr (pyStr sd) (pyStr p) valid]
    let more ← storyLoop valid rest
    pure (here ++ more)

/-- The outer loop over the epics (source lines 229-238). -/
def epicLoop (valid : List String) : List Json → Except VErr (List String)
  | [] => .ok []
  | epic :: rest => do
    let stories0 ← pyGet epic "stories" Json.null
    let w1 ←
      if pyFalsy stories0 then do
        let sd ← pyGet epic "short_description" (Json.str "?")
        pure [epicWarnStr (pyStr sd)]
      else pure ([] : List String)
    let storiesD ← pyGet epic "stories" (Json.arr [])
    let sl ← pyIter storiesD
    let w2 ← storyLoop valid sl
    let more ← epicLoop valid rest
    pure (w1 ++ w2 ++ more)

/-- `validate_structure(data, schema)` (source lines 216-244):
`sys.exit` (modelled as `VErr.emptyBacklog`) when
`data.get("epics", [])` is falsy, otherwise the accumulated warning
list.  The warnings are printed, never returned or persisted; the
function touches nothing else. -/
def validate_structure (data : Json) (schema : Schema) :
    Except VErr (List String) := do
  let epicsJ ← pyGet data "epics" (Json.arr [])
  if pyFalsy epicsJ then Except.error VErr.emptyBacklog
  else do
    let epicL ← pyIter epicsJ
    epicLoop (validPriorities schema) epicL

/-- The post-parse tail of `main` (source lines 298-302): validate, then
persist `data` itself with `json.dump`.  The persisted value is the
result. -/
def run_post_parse (data : Json) (schema : Schema) : Except VErr Json := do
  let _warnings ← validate_structure data schema
  pure data


/-! ## Fence-free inputs: the cleaning phase is exactly `strip()` -/

/-- Does the text contain three consecutive backticks anywhere? -/
def hasFence : List Char → Bool
  | [] => false
  | c :: cs => startsFence (c :: cs) || hasFence cs

theorem startsFence_append {l t : List Char} (h : startsFence l = true) :
    startsFence (l ++ t) = true := by
  match l with
  | [] => simp [startsFence] at h
  | [a] => simp [startsFence] at h
  | [a, b] => simp [startsFence] at h
  | a :: b :: c :: rest => simpa [startsFence] using h

theorem startsFence_of_append {l t : List Char}
    (h : startsFence (l ++ t) = false) : startsFence l = false := by
  cases hl : startsFence l
  · rfl
  · rw [startsFence_append hl] at h
    simp at h

theorem hasFence_cons {c : Char} {cs : List Char} :
    hasFence (c :: cs) = (startsFence (c :: cs) || hasFence cs) := rfl

theorem hasFence_false_tail {c : Char} {cs : List Char}
    (h : hasFence (c :: cs) = false) : hasFence cs = false := by
  rw [hasFence_cons] at h
  exact (Bool.or_eq_false_iff.mp h).2

theorem startsFence_false_of_hasFence {l : List Char}
    (h : hasFence l = false) : startsFence l = false := by
  match l with
  | [] => simp [startsFence]
  | c :: cs =>
    rw [hasFence_cons] at h
    exact (Bool.or_eq_false_iff.mp h).1

theorem hasFence_dropWhile {p : Char → Bool} {l : List Char}
    (h : hasFence l = false) : hasFence (l.dropWhile p) = false := by
  induction l with
  | nil => simpa using h
  | cons c cs ih =>
    rw [List.dropWhile_cons]
    split
    · exact ih (hasFence_false_tail h)
    · exact h

theorem hasFence_append_left {l t : List Char}
    (h : hasFence (l ++ t) = false) : hasFence l = false := by
  induction l with
  | nil => simp [hasFence]
  | cons c cs ih =>
    rw [List.cons_append] at h
    rw [hasFence_cons] at h ⊢
    rcases Bool.or_eq_false_iff.mp h with ⟨h1, h2⟩
    rw [startsFence_of_append (t := t) (by simpa using h1), ih h2]
    simp

theorem dropTrailingWs_append (l : List Char) :
    ∃ t, l = dropTrailingWs l ++ t := by
  refine ⟨(l.reverse.takeWhile isPySpace).reverse, ?_⟩
  rw [dropTrailingWs, ← List.reverse_append, List.takeWhile_append_dropWhile,
    List.reverse_reverse]

theorem hasFence_dropTrailingWs {l : List Char}
    (h : hasFence l = false) : hasFence (dropTrailingWs l) = false := by
  rcases dropTrailingWs_append l with ⟨t, ht⟩
  rw [ht] at h
  exact hasFence_append_left h

theorem hasFence_pyStripL {l : List Char}
    (h : hasFence l = false) : hasFence (pyStripL l) = false :=
  hasFence_dropTrailingWs (hasFence_dropWhile h)

theorem matchOpen_eq_none {l : List Char}
    (h : startsFence l = false) : matchOpen l = none := by
  simp [matchOpen, h]

theorem matchClose_eq_none {l : List Char}
    (h : hasFence l = false) : matchClose l = none := by
  have hs : startsFence (l.dropWhile isPySpace) = false :=
    startsFence_false_of_hasFence (hasFence_dropWhile h)
  simp [matchClose, hs]

theorem subOpenAux_id {fuel : Nat} {l : List Char} {b : Bool}
    (h : hasFence l = false) : subOpenAux fuel l b = l := by
  induction fuel generalizing l b with
  | zero => rfl
  | succ n ih =>
    match l with
    | [] => rfl
    | c :: cs =>
      have hm := matchOpen_eq_none (l := c :: cs)
        (startsFence_false_of_hasFence h)
      have ht := ih (l := cs) (b := (c == '\n')) (hasFence_false_tail h)
      simp [subOpenAux, hm, ht]

theorem subCloseAux_id {fuel : Nat} {l : List Char}
    (h : hasFence l = false) : subCloseAux fuel l = l := by
  induction fuel generalizing l with
  | zero => rfl
  | succ n ih =>
    cases l with
    | nil => rfl
    | cons c cs =>
      have hm := matchClose_eq_none (l := c :: cs) h
      have ht := ih (l := cs) (hasFence_false_tail h)
      show (match matchClose (c :: cs) with
            | some rest => subCloseAux n rest
            | none => c :: subCloseAux n cs) = c :: cs
      rw [hm]
      show c :: subCloseAux n cs = c :: cs
      rw [ht]

theorem dropWhile_head_not {p : Char → Bool} {l : List Char} :
    l.dropWhile p = [] ∨
      ∃ c cs, l.dropWhile p = c :: cs ∧ p c = false := by
  induction l with
  | nil => exact Or.inl rfl
  | cons c cs ih =>
    rw [List.dropWhile_cons]
    split
    · exact ih
    · exact Or.inr ⟨c, cs, rfl, by simp_all⟩

theorem dropWhile_of_head_not {p : Char → Bool} {c : Char} {cs : List Char}
    (h : p c = false) : (c :: cs).dropWhile p = c :: cs := by
  simp [List.dropWhile_cons, h]

theorem dropWhile_idem {p : Char → Bool} {l : List Char} :
    (l.dropWhile p).dropWhile p = l.dropWhile p := by
  rcases dropWhile_head_not (p := p) (l := l) with h | ⟨c, cs, hcs, hc⟩
  · rw [h]
    rfl
  · rw [hcs]
    exact dropWhile_of_head_not hc

theorem dropTrailingWs_idem (l : List Char) :
    dropTrailingWs (dropTrailingWs l) = dropTrailingWs l := by
  rw [dropTrailingWs, dropTrailingWs, List.reverse_reverse, dropWhile_idem]

theorem pyStripL_idem (l : List Char) : pyStripL (pyStripL l) = pyStripL l := by
  rw [pyStripL, pyStripL]
  have hdw : (dropTrailingWs (l.dropWhile isPySpace)).dropWhile isPySpace
      = dropTrailingWs (l.dropWhile isPySpace) := by
    rcases dropWhile_head_not (p := isPySpace) (l := l) with h | ⟨c, cs, hcs, hc⟩
    · rw [h]
      rfl
    · rw [hcs]
      rcases dropTrailingWs_append (c :: cs) with ⟨t, ht⟩
      rcases hd : dropTrailingWs (c :: cs) with _ | ⟨d, ds⟩
      · rfl
      · rw [hd] at ht
        have hdc : d = c := by
          have := congrArg List.head? ht
          simpa using this.symm
        exact dropWhile_of_head_not (hdc ▸ hc)
  rw [hdw, dropTrailingWs_idem]

/-- On fence-free input the whole cleaning phase of `extract_json`
collapses to a single `strip()`. -/
theorem cleanTextL_eq_pyStripL {l : List Char} (h : hasFence l = false) :
    cleanTextL l = pyStripL l := by
  rw [cleanTextL, subOpen, subOpenAux_id (hasFence_pyStripL h), pyStripL_idem,
    subClose, subCloseAux_id (hasFence_pyStripL h), pyStripL_idem]

/-! ## Claim-side reference extractor for C1

`extract_json_textAnchored` follows the words of claim C1 ("strips only
a leading fenced-code-block opening marker ... and only a trailing
closing marker, using anchoring at the start/end of the text"): one
opening-marker removal attempted at the very start of the stripped text,
one closing-marker removal attempted at its very end, nothing else.  It
is the refinement reference to compare `extract_json` against, not a
translation of the source. -/

def endsFence (l : List Char) : Bool := startsFence l.reverse

def dropLast3 (l : List Char) : List Char := (l.reverse.drop 3).reverse

def cleanTextAnchoredL (l : List Char) : List Char :=
  let s0 := pyStripL l
  let s1 :=
    match matchOpen s0 with
    | some (rest, _) => rest
    | none => s0
  let s2 := pyStripL s1
  let s3 := if endsFence s2 then dropLast3 s2 else s2
  pyStripL s3

def cleanTextAnchored (raw : String) : String :=
  String.mk (cleanTextAnchoredL raw.data)

def extract_json_textAnchored (raw : String) : Except ParseError Json :=
  let cleaned := cleanTextAnchored raw
  match jsonLoads cleaned with
  | .ok v => .ok v
  | .error e => .error ⟨jerrMsg e, strTake cleaned 500⟩

/-- Claim C1 (counterexample).  The claim asserts that fence stripping
is anchored at the start and end of the whole text, so on a response
whose only fence marker sits in the middle (here on its own line inside
a JSON array) nothing would be stripped and parsing would fail; the code
compiles the patterns with `re.MULTILINE`, strips the mid-text marker
anchored at its line start, and happily parses the result.  The
text-anchored reading (`extract_json_textAnchored`) and the code
(`extract_json`) observably disagree at this input. -/
theorem extract_json_c1_counterexample :
    extract_json "[\"x\",\n```json\n\"y\"]" =
      .ok (Json.arr [Json.str "x", Json.str "y"]) ∧
    extract_json_textAnchored "[\"x\",\n```json\n\"y\"]" =
      .error ⟨jerrMsg (JErr.expectingValue 6), "[\"x\",\n```json\n\"y\"]"⟩ :=
  ⟨rfl, rfl⟩

/-- Claim C1 (amended).  Fence stripping is anchored at the start and
end of every line (`re.MULTILINE`), not of the whole text.  For a
response containing no fence marker at all, cleaning is exactly
`strip()`, and the extracted value is whatever `json.loads` returns on
the trimmed input. -/
theorem extract_json_fence_free (raw : String)
    (h : hasFence raw.data = false) :
    cleanText raw = pyStripS raw ∧
    (∀ v, jsonLoads (pyStripS raw) = .ok v → extract_json raw = .ok v) := by
  have hc : cleanText raw = pyStripS raw := by
    rw [cleanText, cleanTextL_eq_pyStripL h, pyStripS]
  refine ⟨hc, fun v hv => ?_⟩
  show (match jsonLoads (cleanText raw) with
        | .ok v => (Except.ok v : Except ParseError Json)
        | .error e => .error ⟨jerrMsg e, strTake (cleanText raw) 500⟩) = .ok v
  rw [hc, hv]

/-- Witness for `extract_json_fence_free` at a fence-free JSON
response. -/
theorem extract_json_fence_free_witness :
    extract_json "\x7b\"epics\": []\x7d" = .ok (Json.obj [("epics", Json.arr [])]) :=
  (extract_json_fence_free "\x7b\"epics\": []\x7d" (by decide)).2 _ rfl

/-- Claim C4.  When the cleaned text is not valid JSON the extractor
fails with a `ParseError` carrying the decoder message and the first
500 characters of the cleaned text; the empty cleaned text (here from a
response that is nothing but fences) follows the very same path with an
empty excerpt, not a distinct error kind. -/
theorem extract_json_parse_error_excerpt :
    (∀ raw e, jsonLoads (cleanText raw) = .error e →
      extract_json raw = .error ⟨jerrMsg e, strTake (cleanText raw) 500⟩) ∧
    cleanText "```json\n```" = "" ∧
    extract_json "```json\n```" =
      .error ⟨jerrMsg (JErr.expectingValue 0), ""⟩ := by
  refine ⟨fun raw e h => ?_, rfl, rfl⟩
  show (match jsonLoads (cleanText raw) with
        | .ok v => (Except.ok v : Except ParseError Json)
        | .error e => .error ⟨jerrMsg e, strTake (cleanText raw) 500⟩) = _
  rw [h]

/-- Witness for `extract_json_parse_error_excerpt` at a prose
response. -/
theorem extract_json_parse_error_excerpt_witness :
    extract_json "Sorry, no." =
      .error ⟨jerrMsg (JErr.expectingValue 0), "Sorry, no."⟩ :=
  extract_json_parse_error_excerpt.1 "Sorry, no." (JErr.expectingValue 0) rfl

/-! ## Backlog shape and the warning characterization

`validate_structure` trusts the model for every field except story
presence and priority; the shape predicates below delimit the domain the
spec calls a "parsed backlog value": a dict whose `"epics"` member, when
present, is a list of epic dicts, whose `"stories"` members, when
present, are lists of story dicts, with `short_description`/`priority`
absent or strings.  Everything outside this shape is an untrusted value
on which the code raises an ordinary Python exception. -/

def strOrAbsent (kvs : List (String × Json)) (key : String) : Bool :=
  match dictGet kvs key with
  | none => true
  | some (.str _) => true
  | some _ => false

def storyShaped : Json → Bool
  | .obj kvs => strOrAbsent kvs "priority" && strOrAbsent kvs "short_description"
  | _ => false

def epicShaped : Json → Bool
  | .obj kvs =>
    (match dictGet kvs "stories" with
     | none => true
     | some (.arr ss) => ss.all storyShaped
     | some _ => false) &&
    strOrAbsent kvs "short_description"
  | _ => false

def dataShaped : Json → Bool
  | .obj kvs =>
    match dictGet kvs "epics" with
    | none => true
    | some (.arr es) => es.all epicShaped
    | some _ => false
  | _ => false

/-- The epic list of the backlog (absent key reads as no epics). -/
def epicsOf : Json → List Json
  | .obj kvs =>
    match dictGet kvs "epics" with
    | some (.arr es) => es
    | _ => []
  | _ => []

def storiesOfEpic : Json → List Json
  | .obj kvs =>
    match dictGet kvs "stories" with
    | some (.arr ss) => ss
    | _ => []
  | _ => []

def sdOfEpic : Json → String
  | .obj kvs =>
    match dictGet kvs "short_description" with
    | some (.str s) => s
    | _ => "?"
  | _ => "?"

def sdOfStory : Json → String
  | .obj kvs =>
    match dictGet kvs "short_description" with
    | some (.str s) => s
    | _ => "?"
  | _ => "?"

def priOfStory : Json → String
  | .obj kvs =>
    match dictGet kvs "priority" with
    | some (.str s) => s
    | _ => ""
  | _ => ""

/-- The exact warning list the validator is specified to produce: one
warning per epic with an empty (or absent) story list, identifying the
epic by its short description, and one warning per story whose priority
is not in the valid set, identifying the story and listing the set; in
iteration order, and nothing else. -/
def expectedWarnings (es : List Json) (valid : List String) : List String :=
  es.flatMap (fun e =>
    (if (storiesOfEpic e).isEmpty then [epicWarnStr (sdOfEpic e)] else []) ++
    (storiesOfEpic e).filterMap (fun st =>
      if valid.contains (priOfStory st) then none
      else some (storyWarnStr (sdOfStory st) (priOfStory st) valid)))

theorem pyGet_priority_shaped {st : Json} (h : storyShaped st = true) :
    pyGet st "priority" (Json.str "") = .ok (Json.str (priOfStory st)) := by
  cases st <;> simp [storyShaped] at h
  rename_i kvs
  obtain ⟨h1, h2⟩ := h
  rw [pyGet, priOfStory]
  rcases hd : dictGet kvs "priority" with _ | v
  · simp
  · rcases v <;> simp_all [strOrAbsent, hd]

theorem pyGet_sd_story_shaped {st : Json} (h : storyShaped st = true) :
    pyGet st "short_description" (Json.str "?") = .ok (Json.str (sdOfStory st)) := by
  cases st <;> simp [storyShaped] at h
  rename_i kvs
  obtain ⟨h1, h2⟩ := h
  rw [pyGet, sdOfStory]
  rcases hd : dictGet kvs "short_description" with _ | v
  · simp
  · rcases v <;> simp_all [strOrAbsent, hd]

theorem storyLoop_shaped (valid : List String) (ss : List Json)
    (h : ss.all storyShaped = true) :
    storyLoop valid ss = .ok (ss.filterMap (fun st =>
      if valid.contains (priOfStory st) then none
      else some (storyWarnStr (sdOfStory st) (priOfStory st) valid))) := by
  induction ss with
  | nil => rfl
  | cons st rest ih =>
    rw [List.all_cons, Bool.and_eq_true] at h
    obtain ⟨h1, h2⟩ := h
    rw [storyLoop]
    rw [pyGet_priority_shaped h1]
    simp only [bind, Except.bind, pyStrMem]
    rw [ih h2]
    rcases hc : valid.contains (priOfStory st) with _ | _
    · have hm : ¬ priOfStory st ∈ valid := by simpa using hc
      simp only [Bool.false_eq_true, if_false]
      rw [pyGet_sd_story_shaped h1]
      simp [List.filterMap_cons, hm, pyStr, pure, Except.pure]
    · have hm : priOfStory st ∈ valid := by simpa using hc
      simp [List.filterMap_cons, hm, pyStr, pure, Except.pure]

theorem pyGet_sd_epic_shaped {kvs : List (String × Json)}
    (h : strOrAbsent kvs "short_description" = true) :
    pyGet (Json.obj kvs) "short_description" (Json.str "?") =
      .ok (Json.str (sdOfEpic (Json.obj kvs))) := by
  rw [pyGet, sdOfEpic]
  rcases hd : dictGet kvs "short_description" with _ | v
  · simp
  · rcases v <;> simp_all [strOrAbsent, hd]

theorem epicLoop_shaped (valid : List String) (es : List Json)
    (h : es.all epicShaped = true) :
    epicLoop valid es = .ok (expectedWarnings es valid) := by
  induction es with
  | nil => rfl
  | cons e rest ih =>
    rw [List.all_cons, Bool.and_eq_true] at h
    obtain ⟨h1, h2⟩ := h
    have ihr := ih h2
    cases e with
    | obj kvs =>
      rw [epicShaped, Bool.and_eq_true] at h1
      obtain ⟨hst, hsd⟩ := h1
      have hsd' := pyGet_sd_epic_shaped hsd
      rw [epicLoop]
      rcases hd : dictGet kvs "stories" with _ | v
      · rw [hd] at hst
        have hnull : pyGet (Json.obj kvs) "stories" Json.null = .ok Json.null := by
          simp [pyGet, hd]
        have hdef : pyGet (Json.obj kvs) "stories" (Json.arr []) = .ok (Json.arr []) := by
          simp [pyGet, hd]
        have hsl := storyLoop_shaped valid [] rfl
        simp only [hnull, hdef, hsd', hsl, ihr, bind, Except.bind, pure,
          Except.pure, pyFalsy, pyIter, if_true]
        simp [expectedWarnings, storiesOfEpic, hd, pyStr, List.flatMap_cons]
      · rcases v with _ | b | t | s | ss | mem
        · rw [hd] at hst; simp at hst
        · rw [hd] at hst; simp at hst
        · rw [hd] at hst; simp at hst
        · rw [hd] at hst; simp at hst
        · rw [hd] at hst
          have hnull : pyGet (Json.obj kvs) "stories" Json.null = .ok (Json.arr ss) := by
            simp [pyGet, hd]
          have hdef : pyGet (Json.obj kvs) "stories" (Json.arr []) = .ok (Json.arr ss) := by
            simp [pyGet, hd]
          have hsl := storyLoop_shaped valid ss hst
          simp only [hnull, hdef, hsd', hsl, ihr, bind, Except.bind, pure,
            Except.pure, pyFalsy, pyIter]
          simp [expectedWarnings, storiesOfEpic, hd, pyStr, List.flatMap_cons,
            List.append_assoc]
          split <;> rename_i hie <;> simp [hd, hie, List.append_assoc]
        · rw [hd] at hst; simp at hst
    | null => simp [epicShaped] at h1
    | bool b => simp [epicShaped] at h1
    | num t => simp [epicShaped] at h1
    | str s => simp [epicShaped] at h1
    | arr xs => simp [epicShaped] at h1

theorem validate_structure_shaped (data : Json) (schema : Schema)
    (kvs : List (String × Json)) (es : List Json)
    (hdata : data = Json.obj kvs)
    (hepics : dictGet kvs "epics" = some (Json.arr es))
    (hall : es.all epicShaped = true)
    (hne : es ≠ []) :
    validate_structure data schema =
      .ok (expectedWarnings es (validPriorities schema)) := by
  subst hdata
  have hget : pyGet (Json.obj kvs) "epics" (Json.arr []) = .ok (Json.arr es) := by
    simp [pyGet, hepics]
  have hie : es.isEmpty = false := by
    cases es
    · exact absurd rfl hne
    · rfl
  rw [validate_structure]
  simp only [hget, bind, Except.bind, pyFalsy, hie, Bool.false_eq_true,
    if_false, pyIter, epicLoop_shaped _ _ hall]

theorem validate_structure_empty (kvs : List (String × Json)) (schema : Schema)
    (h : (dictGet kvs "epics").getD (Json.arr []) = Json.arr []) :
    validate_structure (Json.obj kvs) schema = .error VErr.emptyBacklog := by
  have hget : pyGet (Json.obj kvs) "epics" (Json.arr []) = .ok (Json.arr []) := by
    simp [pyGet, h]
  rw [validate_structure]
  simp only [hget, bind, Except.bind, pyFalsy, List.isEmpty_nil, if_true]

/-- Claim C2.  On a parsed backlog value (`dataShaped`: the shape §3 of
the spec describes, with the fields the validator does not inspect left
free), `validate_structure` hard-fails with the empty-backlog exit if
and only if the backlog holds zero epics (an absent `"epics"` key reads
as zero), and that exit is the only hard failure the validator can
produce after a successful parse — every other finding is a warning in
the returned list. -/
theorem validate_structure_hard_fail_iff_empty (data : Json) (schema : Schema)
    (h : dataShaped data = true) :
    ((validate_structure data schema = .error VErr.emptyBacklog) ↔
      epicsOf data = []) ∧
    (∀ e, validate_structure data schema = .error e →
      e = VErr.emptyBacklog) := by
  cases data with
  | obj kvs =>
    rw [dataShaped] at h
    rcases hd : dictGet kvs "epics" with _ | v
    · have hv := validate_structure_empty kvs schema (by rw [hd]; rfl)
      refine ⟨⟨fun _ => by simp [epicsOf, hd], fun _ => hv⟩, fun e he => ?_⟩
      rw [hv] at he
      injection he with h'
      exact h'.symm
    · rw [hd] at h
      rcases v with _ | b | t | s | es | mem
      · simp at h
      · simp at h
      · simp at h
      · simp at h
      · by_cases hne : es = []
        · subst hne
          have hv := validate_structure_empty kvs schema (by rw [hd]; rfl)
          refine ⟨⟨fun _ => by simp [epicsOf, hd], fun _ => hv⟩, fun e he => ?_⟩
          rw [hv] at he
          injection he with h'
          exact h'.symm
        · have hok := validate_structure_shaped (Json.obj kvs) schema kvs es rfl hd h hne
          refine ⟨⟨fun hx => ?_, fun hx => ?_⟩, fun e he => ?_⟩
          · rw [hok] at hx
            exact absurd hx (by simp)
          · rw [epicsOf, hd] at hx
            exact absurd hx hne
          · rw [hok] at he
            exact absurd he (by simp)
      · simp at h
  | null => simp [dataShaped] at h
  | bool b => simp [dataShaped] at h
  | num t => simp [dataShaped] at h
  | str s => simp [dataShaped] at h
  | arr xs => simp [dataShaped] at h

theorem dictGet_append_last (kvs : List (String × Json)) (k : String) (v : Json) :
    dictGet (kvs ++ [(k, v)]) k = some v := by
  induction kvs with
  | nil => simp [dictGet]
  | cons p rest ih => simp [dictGet, ih]

/-- Claim C9.  A parsed object with no `"epics"` key at all is treated
exactly like one whose `"epics"` is the empty list: `data.get("epics",
[])` defaults to `[]`, which is falsy, so both shapes exit through the
same empty-backlog path and are indistinguishable at the validation
boundary. -/
theorem validate_structure_missing_epics_key (kvs : List (String × Json)) (schema : Schema)
    (h : dictGet kvs "epics" = none) :
    validate_structure (Json.obj kvs) schema = .error VErr.emptyBacklog ∧
    validate_structure (Json.obj (kvs ++ [("epics", Json.arr [])])) schema =
      .error VErr.emptyBacklog :=
  ⟨validate_structure_empty kvs schema (by rw [h]; rfl),
    validate_structure_empty _ schema (by rw [dictGet_append_last]; rfl)⟩

/-- Claim C7.  The validator only reads the backlog: whenever the
post-parse pipeline (validate, then persist) completes, the persisted
value is exactly the parsed value, no matter how many warnings were
collected on the way. -/
theorem run_post_parse_preserves_backlog (data : Json) (schema : Schema) (v : Json)
    (h : run_post_parse data schema = .ok v) : v = data := by
  rw [run_post_parse] at h
  rcases hv : validate_structure data schema with e | w <;>
    simp [hv, bind, Except.bind, pure, Except.pure] at h
  exact h.symm

/-- Claim C5.  On a non-empty well-shaped backlog the validator returns
exactly `expectedWarnings`: one warning per epic whose story list is
empty or absent (naming the epic by its short description), one warning
per story whose priority is outside the schema key set (naming the
story and listing the set), in iteration order, and nothing else. -/
theorem validate_structure_warning_list (data : Json) (schema : Schema)
    (kvs : List (String × Json)) (es : List Json)
    (hdata : data = Json.obj kvs)
    (hshape : dataShaped data = true)
    (hepics : dictGet kvs "epics" = some (Json.arr es))
    (hne : es ≠ []) :
    validate_structure data schema =
      .ok (expectedWarnings es (validPriorities schema)) := by
  subst hdata
  rw [dataShaped, hepics] at hshape
  exact validate_structure_shaped _ schema kvs es rfl hepics hshape hne

/-- A schema with three priorities, used by the witnesses. -/
def sampleSchema : Schema :=
  ⟨[("grouping", "Group by feature area.")],
    [("critical", ⟨some "Must fix immediately", some "1 - Critical"⟩),
      ("high", ⟨some "Needed soon", some "2 - High"⟩),
      ("low", ⟨some "Nice to have", some "4 - Low"⟩)]⟩

def sampleBacklogEpics : List Json :=
  [Json.obj [("short_description", Json.str "Epic X"), ("stories", Json.arr [])],
    Json.obj [("stories", Json.arr
      [Json.obj [("short_description", Json.str "Story S"),
        ("priority", Json.str "urgent")]])]]

def sampleBacklog : Json := Json.obj [("epics", Json.arr sampleBacklogEpics)]

/-- Witness for `validate_structure_hard_fail_iff_empty` on an empty
backlog. -/
theorem validate_structure_hard_fail_iff_empty_witness :
    (validate_structure (Json.obj [("epics", Json.arr [])]) sampleSchema =
      .error VErr.emptyBacklog) ↔
      epicsOf (Json.obj [("epics", Json.arr [])]) = [] :=
  (validate_structure_hard_fail_iff_empty (Json.obj [("epics", Json.arr [])])
    sampleSchema (by rfl)).1

/-- Witness for `validate_structure_warning_list`: one empty epic and
one story with an unknown priority yield exactly the two specified
warnings. -/
theorem validate_structure_warning_list_witness :
    validate_structure sampleBacklog sampleSchema = .ok
      ["  Epic \x27Epic X\x27 has no stories.",
        "  Story \x27Story S\x27 has unknown priority \x27urgent\x27 — valid values: critical, high, low"] :=
  validate_structure_warning_list sampleBacklog sampleSchema _ sampleBacklogEpics
    rfl (by rfl) rfl (by simp [sampleBacklogEpics])

/-- Witness for `run_post_parse_preserves_backlog`. -/
theorem run_post_parse_preserves_backlog_witness :
    Json.obj [("epics", Json.arr [Json.obj []])] =
      Json.obj [("epics", Json.arr [Json.obj []])] :=
  run_post_parse_preserves_backlog (Json.obj [("epics", Json.arr [Json.obj []])])
    sampleSchema _ rfl

/-- Witness for `validate_structure_missing_epics_key`. -/
theorem validate_structure_missing_epics_key_witness :
    validate_structure (Json.obj [("foo", Json.num "1")]) sampleSchema =
      .error VErr.emptyBacklog ∧
    validate_structure
        (Json.obj ([("foo", Json.num "1")] ++ [("epics", Json.arr [])]))
        sampleSchema =
      .error VErr.emptyBacklog :=
  validate_structure_missing_epics_key [("foo", Json.num "1")] sampleSchema rfl

/-! ## Prompt-synthesis theorems -/

/-- The priority block on a guidance-complete schema: one line per
`priorities` entry, in iteration order. -/
def pbOf (schema : Schema) : String :=
  "\n".intercalate
    (schema.priorities.map fun kc => prioLine kc.1 (kc.2.guidance.getD ""))

/-- The system prompt `build_prompt` produces on a guidance-complete
schema. -/
def sysPromptFor (schema : Schema) : String :=
  systemPromptOf
    (aiGet schema "grouping" defGrouping)
    (aiGet schema "story_format" defStoryFormat)
    (aiGet schema "description_format" defDescriptionFormat)
    (aiGet schema "acceptance_criteria" defAcceptanceCriteria)
    (pbOf schema)

theorem priorityLines_ok (ps : List (String × PrioCfg))
    (h : ∀ kc ∈ ps, kc.2.guidance.isSome = true) :
    priorityLines ps =
      .ok (ps.map fun kc => prioLine kc.1 (kc.2.guidance.getD "")) := by
  induction ps with
  | nil => rfl
  | cons kc rest ih =>
    have h1 := h kc (by simp)
    have h2 : ∀ x ∈ rest, x.2.guidance.isSome = true :=
      fun x hx => h x (by simp [hx])
    obtain ⟨k, cfg⟩ := kc
    rcases hg : cfg.guidance with _ | g
    · rw [hg] at h1
      simp at h1
    · rw [priorityLines, hg]
      simp [ih h2, bind, Except.bind, pure, Except.pure, hg]

/-- `s` has `t` as a contiguous substring. -/
def strContains (s t : String) : Prop := ∃ u v, s = u ++ (t ++ v)

theorem strContains_here (a t b : String) : strContains (a ++ (t ++ b)) t :=
  ⟨a, b, rfl⟩

theorem strContains_under (p : String) {s t : String} (h : strContains s t) :
    strContains (p ++ s) t := by
  obtain ⟨u, v, rfl⟩ := h
  exact ⟨p ++ u, v, by rw [String.append_assoc]⟩

theorem aiGet_of_none {schema : Schema} {key : String} (d : String)
    (h : schema.instructions.lookup key = none) : aiGet schema key d = d := by
  rw [aiGet, h]

/-- Claim C3.  The priority vocabulary block of the system prompt holds
exactly one line per `priorities` entry, in the schema's iteration
order (`pbOf` is by definition the join of that one-line-per-key map),
and the key set the Structural Validator later checks against is the
self-same key list of the schema — synthesis and validation read the one
source of truth, so the enumerated vocabulary and the validated set
coincide. -/
theorem priority_block_matches_validator (schema : Schema)
    (hgd : ∀ kc ∈ schema.priorities, kc.2.guidance.isSome = true)
    (hnd : (schema.priorities.map Prod.fst).Nodup) :
    priority_block schema.priorities = .ok (pbOf schema) ∧
    (schema.priorities.map
        (fun kc => prioLine kc.1 (kc.2.guidance.getD ""))).length =
      (validPriorities schema).length ∧
    validPriorities schema = schema.priorities.map Prod.fst ∧
    (validPriorities schema).Nodup := by
  refine ⟨?_, by simp [validPriorities], rfl, hnd⟩
  rw [priority_block, priorityLines_ok _ hgd]
  rfl

/-- Witness for `priority_block_matches_validator`. -/
theorem priority_block_matches_validator_witness :
    priority_block sampleSchema.priorities = .ok (pbOf sampleSchema) ∧
    (sampleSchema.priorities.map
        (fun kc => prioLine kc.1 (kc.2.guidance.getD ""))).length =
      (validPriorities sampleSchema).length ∧
    validPriorities sampleSchema = sampleSchema.priorities.map Prod.fst ∧
    (validPriorities sampleSchema).Nodup :=
  priority_block_matches_validator sampleSchema (by decide) (by decide)

/-- A schema whose single priority record lacks the `guidance` key and
whose instruction mapping is empty. -/
def badSchema : Schema := ⟨[], [("critical", ⟨none, some "1 - Critical"⟩)]⟩

/-- Claim C6 (counterexample).  The claim quantifies over every schema
missing one or more instruction keys and asserts `build_prompt` never
raises there; `badSchema` is missing all four instruction keys, yet
`build_prompt` raises `KeyError("guidance")` because its priority record
lacks the guidance key — so the claim fails as stated. -/
theorem build_prompt_missing_guidance_counterexample :
    badSchema.instructions.lookup "grouping" = none ∧
    build_prompt badSchema "doc" = .error (PyErr.keyError "guidance") :=
  ⟨rfl, rfl⟩

/-- Claim C6 (amended).  Provided every priority record carries its
`guidance` key (the Schema Model invariant), a schema missing any of the
four instruction keys gets the corresponding non-empty built-in default
substituted into the system prompt, and `build_prompt` does not raise. -/
theorem build_prompt_defaults_for_missing_keys (schema : Schema) (doc : String)
    (hgd : ∀ kc ∈ schema.priorities, kc.2.guidance.isSome = true) :
    build_prompt schema doc = .ok (sysPromptFor schema, userPromptOf doc) ∧
    (schema.instructions.lookup "grouping" = none →
      strContains (sysPromptFor schema) defGrouping) ∧
    (schema.instructions.lookup "story_format" = none →
      strContains (sysPromptFor schema) defStoryFormat) ∧
    (schema.instructions.lookup "description_format" = none →
      strContains (sysPromptFor schema) defDescriptionFormat) ∧
    (schema.instructions.lookup "acceptance_criteria" = none →
      strContains (sysPromptFor schema) defAcceptanceCriteria) ∧
    defGrouping ≠ "" ∧ defStoryFormat ≠ "" ∧
    defDescriptionFormat ≠ "" ∧ defAcceptanceCriteria ≠ "" := by
  refine ⟨?_, fun hm => ?_, fun hm => ?_, fun hm => ?_, fun hm => ?_,
    by decide, by decide, by decide, by decide⟩
  · rw [build_prompt, priority_block, priorityLines_ok _ hgd]
    rfl
  · rw [sysPromptFor, systemPromptOf, aiGet_of_none _ hm]
    exact strContains_here _ _ _
  · rw [sysPromptFor, systemPromptOf, aiGet_of_none _ hm]
    exact strContains_under _ (strContains_under _ (strContains_here _ _ _))
  · rw [sysPromptFor, systemPromptOf, aiGet_of_none _ hm]
    exact strContains_under _ (strContains_under _ (strContains_under _
      (strContains_under _ (strContains_here _ _ _))))
  · rw [sysPromptFor, systemPromptOf, aiGet_of_none _ hm]
    exact strContains_under _ (strContains_under _ (strContains_under _
      (strContains_under _ (strContains_under _ (strContains_under _
        (strContains_here _ _ _))))))

/-- A schema with priorities but an empty instruction mapping. -/
def noInstrSchema : Schema := ⟨[], sampleSchema.priorities⟩

/-- Witness for `build_prompt_defaults_for_missing_keys`: with every
instruction key missing, synthesis succeeds and the default grouping
guidance appears in the system prompt. -/
theorem build_prompt_defaults_for_missing_keys_witness :
    build_prompt noInstrSchema "doc" =
      .ok (sysPromptFor noInstrSchema, userPromptOf "doc") ∧
    strContains (sysPromptFor noInstrSchema) defGrouping :=
  ⟨(build_prompt_defaults_for_missing_keys noInstrSchema "doc" (by decide)).1,
    (build_prompt_defaults_for_missing_keys noInstrSchema "doc" (by decide)).2.1 rfl⟩

/-- Claim C8.  `build_prompt` is a pure function of the schema and the
document: the source reads no clock, randomness or other ambient state,
and the embedding is deterministic — identical inputs give byte-identical
prompt pairs. -/
theorem build_prompt_deterministic (s1 s2 : Schema) (d1 d2 : String)
    (hs : s1 = s2) (hd : d1 = d2) :
    build_prompt s1 d1 = build_prompt s2 d2 := by
  rw [hs, hd]

/-- Witness for `build_prompt_deterministic`. -/
theorem build_prompt_deterministic_witness :
    build_prompt sampleSchema "doc" = build_prompt sampleSchema "doc" :=
  build_prompt_deterministic sampleSchema sampleSchema "doc" "doc" rfl rfl

/-- Claim C10.  `build_prompt` is total exactly on schemas whose
priority records all carry `guidance`: under that precondition it
returns the prompt pair, while on `badSchema` (one record without
`guidance`) it raises `KeyError("guidance")` — unlike every other schema
access, which goes through a defaulting `.get`. -/
theorem build_prompt_guidance_precondition :
    (∀ schema doc, (∀ kc ∈ schema.priorities, kc.2.guidance.isSome = true) →
      build_prompt schema doc = .ok (sysPromptFor schema, userPromptOf doc)) ∧
    (∃ kc ∈ badSchema.priorities, kc.2.guidance = none) ∧
    (∀ doc, build_prompt badSchema doc = .error (PyErr.keyError "guidance")) := by
  refine ⟨fun schema doc hgd => ?_, ⟨("critical", ⟨none, some "1 - Critical"⟩),
    by simp [badSchema], rfl⟩, fun doc => rfl⟩
  rw [build_prompt, priority_block, priorityLines_ok _ hgd]
  rfl

/-- Witness for `build_prompt_guidance_precondition`. -/
theorem build_prompt_guidance_precondition_witness :
    build_prompt sampleSchema "doc" =
      .ok (sysPromptFor sampleSchema, userPromptOf "doc") :=
  build_prompt_guidance_precondition.1 sampleSchema "doc" (by decide)
